import Mathlib

/-!
Verification development for `lanmonitor.py`, a LAN device discovery and
change-tracking program.  The Python source is shallowly embedded below:
pure computations become Lean functions, the SQLite registry becomes an
explicit list of rows threaded through the operations, and the external
collaborators (the `ping` probe, the `arp` cache, the vendor-name HTTP
service) become oracle parameters.  Fallible code returns `Except String`.
-/

namespace LanMonitor

/-! ### String and character utilities

Python substring containment (`n in s`) and minimal matchers for the three
regular expressions the source compiles:
  `\w\w-\w\w-\w\w-\w\w-\w\w-\w\w`  (mac_pattern, lines 44 and 134),
  `\d+\.\d+\.\d+\.\d+`             (ip_pattern, line 45),
  `\d+\.\d+\.\d+\.`                (ip_range_pattern, line 80).
`\w` is modelled as ASCII alphanumeric or underscore and `\d` as an ASCII
digit.  For these patterns greedy matching needs no backtracking: a maximal
digit run followed by a required literal dot is exactly what the Python regex
engine produces, because shortening a maximal digit run leaves a digit (not
a dot) as the next character.
-/

/-- Substring test on character lists: the Python `needle in hay`. -/
def containsSub (needle : List Char) : List Char → Bool
  | [] => needle.isEmpty
  | c :: t => needle.isPrefixOf (c :: t) || containsSub needle t

/-- Substring test on strings: the Python `needle in hay`. -/
def containsStr (needle hay : String) : Bool :=
  containsSub needle.data hay.data

/-- ASCII model of the regex class `\w`. -/
def isWordChar (c : Char) : Bool := c.isAlphanum || c == '_'

/-- Split off the maximal leading run of decimal digits: length and rest. -/
def takeDigits : List Char → Nat × List Char
  | [] => (0, [])
  | c :: t =>
    if c.isDigit then
      let p := takeDigits t
      (p.1 + 1, p.2)
    else (0, c :: t)

/-- Match `\d+` at the start of the input, returning the rest. -/
def matchDigits1 (l : List Char) : Option (List Char) :=
  match takeDigits l with
  | (0, _) => none
  | (_ + 1, rest) => some rest

/-- Match a literal dot at the start of the input. -/
def matchDot : List Char → Option (List Char)
  | '.' :: r => some r
  | _ => none

/-- Match `\d+\.` at the start of the input. -/
def matchSeg (l : List Char) : Option (List Char) :=
  (matchDigits1 l).bind matchDot

/-- Match `\d+\.\d+\.\d+\.` (ip_range_pattern) at the start of the input. -/
def matchIpRangeAt (l : List Char) : Option (List Char) :=
  ((matchSeg l).bind matchSeg).bind matchSeg

/-- Match `\d+\.\d+\.\d+\.\d+` (ip_pattern) at the start of the input. -/
def matchIpAt (l : List Char) : Option (List Char) :=
  (((matchSeg l).bind matchSeg).bind matchSeg).bind matchDigits1

/-- Match the 17-character mac_pattern at the start of the input. -/
def matchMacAt : List Char → Option (List Char)
  | a1 :: a2 :: '-' :: b1 :: b2 :: '-' :: c1 :: c2 :: '-' :: d1 :: d2 :: '-' :: e1 :: e2 :: '-' :: f1 :: f2 :: rest =>
    if ([a1, a2, b1, b2, c1, c2, d1, d2, e1, e2, f1, f2].all isWordChar) then
      some rest
    else none
  | _ => none

/-- Python `pattern.search`: scan left to right for the first position where
`m` matches, returning the matched characters (`line[start:end]`). -/
def regexSearch (m : List Char → Option (List Char)) : List Char → Option (List Char)
  | [] => none
  | c :: t =>
    match m (c :: t) with
    | some rest => some ((c :: t).take ((c :: t).length - rest.length))
    | none => regexSearch m t

/-! ### Local Identity Resolver: `fetch_user_id` (lines 31-63)

The `ipconfig /all` output is modelled as its list of lines (the source
immediately calls `splitlines()` on the raw text).  Both finders scan for
the first line that carries the marker text and on which the pattern
matches; a marker line without a pattern match is skipped, exactly as the
source `if(match): return ...` inside the loop does.  Note the source
never raises: when nothing matches, the helper loops fall off the end and
return Python `None`, and the dict is returned with `None` fields.
-/

structure UserId where
  name : String
  ip : Option String
  mac : Option String
deriving DecidableEq

/-- Inner helper `mac_find` of `fetch_user_id` (lines 47-52). -/
def mac_find : List String → Option String
  | [] => none
  | line :: rest =>
    if containsStr "Physical Address" line then
      match regexSearch matchMacAt line.data with
      | some m => some (String.mk m)
      | none => mac_find rest
    else mac_find rest

/-- Inner helper `ip_find` of `fetch_user_id` (lines 54-59). -/
def ip_find : List String → Option String
  | [] => none
  | line :: rest =>
    if containsStr "IPv4 Address" line then
      match regexSearch matchIpAt line.data with
      | some m => some (String.mk m)
      | none => ip_find rest
    else ip_find rest

/-- Embedding of `fetch_user_id` (lines 31-63), with the `ipconfig /all` output lines as
the oracle input. -/
def fetch_user_id (ipconfig_output : List String) : UserId :=
  ⟨"Your Device", ip_find ipconfig_output, mac_find ipconfig_output⟩

/-! ### Reachability Sweeper: `ping_all` (lines 67-123)

The per-address probe is an oracle `po : String → String` giving the text
that `subprocess.run` on the ping command produces for that address.  The
returned `SweepResult` carries the source `ip_list` and `ping_count`;
`probed` is instrumentation recording the exact sequence of addresses for
which a probe subprocess was launched (so `ping_count = probed.length`).
The wall-clock `total_time` component of the source return value is not
modelled.

The source failure branch executes `sys.exit("error, IP not matching in
ping_all function")` (line 88); since the module never imports `sys`, that
line actually raises `NameError` in Python.  Either way the call aborts
with an exception instead of returning, which the embedding represents as
`Except.error` carrying the intended message.
-/

/-- The classification phrases of lines 105: note the literal characters
are `1 0 0 % % space l o s t` — the Python string `"100%% lost"` is not a
format string, so both percent signs are literal. -/
def not_found_messages : List String := ["unreachable", "timed out", "100%% lost"]

/-- Classification of one probe output (lines 103-110): the probe failed
iff some failure phrase occurs in the output. -/
def ping_failed (out : String) : Bool :=
  not_found_messages.any (fun n => containsStr n out)

structure SweepResult where
  ip_list : List String
  ping_count : Nat
  probed : List String
deriving DecidableEq

/-- The `for i in range(0, 255)` loop of lines 91-117.  `rem` is the number
of loop iterations left (`255 - i` at entry), `i` the current index,
`unused` the consecutive-miss counter, `count` the ping counter. -/
def pingLoop (x ip_pre : String) (po : String → String) :
    Nat → Nat → List String → Nat → Nat → List String → SweepResult
  | 0, _, ipList, _, count, probed => ⟨ipList, count, probed⟩
  | rem + 1, i, ipList, unused, count, probed =>
    let ip_post := ip_pre ++ toString i
    if x = ip_post then
      pingLoop x ip_pre po rem (i + 1) ipList unused count probed
    else
      let out := po ip_post
      if ping_failed out then
        if unused + 1 > 3 then
          ⟨ipList, count + 1, probed ++ [ip_post]⟩
        else
          pingLoop x ip_pre po rem (i + 1) ipList (unused + 1) (count + 1) (probed ++ [ip_post])
      else
        pingLoop x ip_pre po rem (i + 1) (ipList ++ [ip_post]) 0 (count + 1) (probed ++ [ip_post])

/-- Embedding of `ping_all` (lines 67-123).  The `timeout` argument only parametrises the
probe subprocess in the source, so it does not enter the pure semantics. -/
def ping_all (x : String) (_timeout : Nat) (po : String → String) : Except String SweepResult :=
  match regexSearch matchIpRangeAt x.data with
  | some pre => .ok (pingLoop x (String.mk pre) po 255 0 [] 0 0 [])
  | none => .error "error, IP not matching in ping_all function"

/-! ### Data model

A client dict with keys ip, mac, name, id becomes the
`Client` structure, and a row of the SQLite table
`clients (name text, mac text, id integer primary key, UNIQUE(mac))`
becomes `DBRow`.  The database is the list of rows in insertion order; the
`id integer primary key` column is the SQLite rowid alias, assigned on insert
as one more than the current maximum (1 for an empty table).
-/

structure Client where
  ip : String
  mac : String
  name : String
  id : Int
deriving DecidableEq

/-- Field update helpers (Python mutates the dict in place). -/
def Client.withMac (c : Client) (m : String) : Client := ⟨c.ip, m, c.name, c.id⟩

def Client.withName (c : Client) (n : String) : Client := ⟨c.ip, c.mac, n, c.id⟩

def Client.withId (c : Client) (i : Int) : Client := ⟨c.ip, c.mac, c.name, i⟩

structure DBRow where
  name : String
  mac : String
  id : Int
deriving DecidableEq

def DBRow.withName (r : DBRow) (n : String) : DBRow := ⟨n, r.mac, r.id⟩

/-- Query `SELECT ... FROM clients WHERE mac = :mac` followed by `fetchone()`:
the first row whose mac column equals `mac`, if any. -/
def findRow (db : List DBRow) (mac : String) : Option DBRow :=
  db.find? (fun r => r.mac == mac)

/-- SQLite rowid assignment for `INSERT` without an explicit id. -/
def nextId (db : List DBRow) : Int :=
  db.foldl (fun m r => max m r.id) 0 + 1

/-! ### Hardware-Address Resolver: `get_macs` (lines 126-148)

The `arp -a` snapshot is the list of its output lines.  For each client the
source scans the lines; on a line containing the client ip while the
client mac is still the sentinel, it searches for the mac pattern — on a
match it stores the mac and breaks out of the line scan, on no match it
keeps scanning.  The function returns the constant `True` (line 148), not
the list.
-/

/-- The inner line scan of `get_macs` for one client (lines 139-146). -/
def getMacsScan : List String → Client → Client
  | [], client => client
  | line :: rest, client =>
    if containsStr client.ip line && client.mac == "unknown" then
      match regexSearch matchMacAt line.data with
      | some m => client.withMac (String.mk m)
      | none => getMacsScan rest client
    else getMacsScan rest client

/-- Embedding of `get_macs` (lines 126-148): the updated client list (the in-place
mutation effect) paired with the function return value. -/
def get_macs (arp_output : List String) (client_list : List Client) : List Client × Bool :=
  (client_list.map (getMacsScan arp_output), true)

/-! ### Device Registry operations (lines 151-251) -/

/-- Embedding of `add_clients_to_db` (lines 233-251): for each client, if no row with its
mac exists, `INSERT INTO clients (name, mac) VALUES (:name, :mac)`; an
existing row is left alone. -/
def add_clients_to_db : List DBRow → List Client → List DBRow
  | db, [] => db
  | db, c :: rest =>
    match findRow db c.mac with
    | some _ => add_clients_to_db db rest
    | none => add_clients_to_db (db ++ [⟨c.name, c.mac, nextId db⟩]) rest

/-- One step of the first loop of `get_client_names` (lines 164-173): when
the in-memory name is the sentinel, `client[name] = c.fetchone()[0]`.  If
the query found no row, `fetchone()` is Python `None` and the subscript
raises `TypeError` — the surrounding `except sqlite3.IntegrityError` does
not catch it, so the exception propagates out of the function. -/
def hydrateNameStep (db : List DBRow) (c : Client) : Except String Client :=
  if c.name == "unknown" then
    match findRow db c.mac with
    | some r => .ok (c.withName r.name)
    | none => .error "TypeError: NoneType object is not subscriptable"
  else .ok c

/-- One step of the second loop of `get_client_names` (lines 175-184): when
the in-memory id is the placeholder -1, `client[id] = c.fetchone()[0]`,
with the same uncaught `TypeError` on a missing row. -/
def hydrateIdStep (db : List DBRow) (c : Client) : Except String Client :=
  if c.id == -1 then
    match findRow db c.mac with
    | some r => .ok (c.withId r.id)
    | none => .error "TypeError: NoneType object is not subscriptable"
  else .ok c

/-- Run an effectful step over each list element in order, stopping at the
first exception (a Python `for` loop over which an exception propagates). -/
def mapE {α β : Type} (f : α → Except String β) : List α → Except String (List β)
  | [] => .ok []
  | a :: t =>
    match f a with
    | .error e => .error e
    | .ok b =>
      match mapE f t with
      | .error e => .error e
      | .ok t' => .ok (b :: t')

/-- Embedding of `get_client_names` (lines 151-187): the name loop over the whole list,
then the id loop over the whole list. -/
def get_client_names (db : List DBRow) (client_list : List Client) : Except String (List Client) :=
  match mapE (hydrateNameStep db) client_list with
  | .error e => .error e
  | .ok l1 => mapE (hydrateIdStep db) l1

/-- Embedding of `save_client_name` (lines 191-206):
`UPDATE clients SET name = :name WHERE mac = :mac`. -/
def save_client_name (db : List DBRow) (c : Client) : List DBRow :=
  db.map (fun r => if r.mac == c.mac then r.withName c.name else r)

/-- Embedding of `get_mac_manufacturer_api` (lines 210-229), with the vendor service as
an oracle `api : String → Option String`: on a successful response the
client name becomes the response text, otherwise (non-ok status or
request exception) the client is unchanged. -/
def get_mac_manufacturer_api (api : String → Option String) (c : Client) : Client :=
  match api c.mac with
  | some n => c.withName n
  | none => c

/-- The vendor-enrichment loop of `get_connections_info` (lines 352-355):
for each client still named with the sentinel, call the vendor api and then
`save_client_name`.  Returns the updated clients, the updated database, and
the list of macs for which the vendor api was invoked. -/
def vendorLoop (api : String → Option String) : List DBRow → List Client → List Client × List DBRow × List String
  | db, [] => ([], db, [])
  | db, c :: rest =>
    if c.name == "unknown" then
      let c1 := get_mac_manufacturer_api api c
      let r := vendorLoop api (save_client_name db c1) rest
      (c1 :: r.1, r.2.1, c.mac :: r.2.2)
    else
      let r := vendorLoop api db rest
      (c :: r.1, r.2.1, r.2.2)

/-- Embedding of `get_connections_info` (lines 341-355): resolve macs, register rows,
hydrate names and ids, then vendor-enrich still-unnamed devices. -/
def get_connections_info (arp_output : List String) (api : String → Option String)
    (db : List DBRow) (client_list : List Client) :
    Except String (List Client × List DBRow × List String) :=
  let cl1 := (get_macs arp_output client_list).1
  let db1 := add_clients_to_db db cl1
  match get_client_names db1 cl1 with
  | .error e => .error e
  | .ok cl2 => .ok (vendorLoop api db1 cl2)

/-! ### Change Detector: one cycle of `monitor` (`run_monitor`, lines 365-398)

The disconnect scan iterates over `client_list` with the Python list
iterator while `client_list.remove(d)` shrinks the list in place: the
iterator holds a bare index that advances every step, so removing the
current element makes the element after it be skipped.  `monitorScan`
models the iterator index `k` explicitly; `fuel` bounds the recursion (the
index–length gap shrinks every step, so `client_list.length` iterations
always suffice).  `list.remove(v)` removes the first element equal to `v`.
-/

/-- Python `list.remove`: drop the first element equal to `a`. -/
def eraseFirst {α : Type} [DecidableEq α] : List α → α → List α
  | [], _ => []
  | x :: t, a => if x = a then t else x :: eraseFirst t a

/-- The disconnect-detection loop (lines 371-383).  Returns the surviving
client list, the not-yet-consumed sweep addresses, and the devices for
which a disconnect event was emitted. -/
def monitorScan : Nat → Nat → List Client → List String → List Client → List Client × List String × List Client
  | 0, _, cl, latest, dis => (cl, latest, dis)
  | fuel + 1, k, cl, latest, dis =>
    match cl.get? k with
    | none => (cl, latest, dis)
    | some d =>
      if d.ip ∈ latest then
        monitorScan fuel (k + 1) cl (eraseFirst latest d.ip) dis
      else
        monitorScan fuel (k + 1) (eraseFirst cl d) latest (dis ++ [d])

/-- A freshly sighted device (line 389). -/
def newClient (ip : String) : Client := ⟨ip, "unknown", "unknown", -1⟩

/-- The new-connection loop (lines 386-392): append a fresh client, run the
full enrichment over the whole list, and emit a connect event carrying the
list last element. -/
def addLoop (arp_output : List String) (api : String → Option String) :
    List String → List Client → List DBRow → List Client →
    Except String (List Client × List DBRow × List Client)
  | [], cl, db, conEv => .ok (cl, db, conEv)
  | ip :: rest, cl, db, conEv =>
    let cl1 := cl ++ [newClient ip]
    match get_connections_info arp_output api db cl1 with
    | .error e => .error e
    | .ok (cl2, db2, _) => addLoop arp_output api rest cl2 db2 (conEv ++ [cl2.getLastD (newClient ip)])

/-- One monitoring cycle `run_monitor` (lines 365-398), with the probe,
arp-cache and vendor-service oracles and the registry state made explicit.
Returns the new live list, the new database, the disconnect events and the
connect events.  (The interactive `menu` call on a change is an external
collaborator and emits no events.) -/
def run_monitor (id_ip : String) (po : String → String) (arp_output : List String)
    (api : String → Option String) (db : List DBRow) (client_list : List Client) :
    Except String (List Client × List DBRow × List Client × List Client) :=
  match ping_all id_ip 1000 po with
  | .error e => .error e
  | .ok res =>
    let s := monitorScan client_list.length 0 client_list res.ip_list []
    match addLoop arp_output api s.2.1 s.1 db [] with
    | .error e => .error e
    | .ok (cl, db2, conEv) => .ok (cl, db2, s.2.2, conEv)

/-! ### Concrete scenario inputs used by the claim theorems -/

/-- A previously known device at 10.0.0.1. -/
def devA : Client := ⟨"10.0.0.1", "AA-AA-AA-AA-AA-AA", "alpha", 1⟩

/-- A previously known device at 10.0.0.2. -/
def devB : Client := ⟨"10.0.0.2", "BB-BB-BB-BB-BB-BB", "beta", 2⟩

/-- A probe oracle under which no address answers. -/
def poAllFail : String → String := fun _ => "Request timed out."

/-- Scenario A probe oracle: only .5 and .20 answer. -/
def poScenarioA : String → String := fun ip =>
  if ip == "192.168.1.5" || ip == "192.168.1.20" then
    "Reply from host: bytes=1 time=1ms TTL=64"
  else "Request timed out."

/-- A probe oracle where 10.0.0.0 answers with a 100%-loss summary line and
every other address times out. -/
def poLoss : String → String := fun ip =>
  if ip == "10.0.0.0" then
    "Packets: Sent = 1, Received = 0, Lost = 1 (100% loss)"
  else "Request timed out."

/-- C1: the Change Detector diff property fails on the code.  With previous
live set {10.0.0.1, 10.0.0.2} and a sweep that reaches nothing (current set
empty), the claim demands two disconnect events and an empty live set; the
cycle emits exactly one disconnect event (for 10.0.0.1) and leaves 10.0.0.2
in the live set, because the disconnect loop removes from the list it is
iterating and the iterator skips the element after each removal (the bug
the source own header comment, lines 23-24, records). -/
theorem c1_run_monitor_missed_disconnect :
    run_monitor "10.0.0.9" poAllFail [] (fun _ => none) [] [devA, devB] =
      .ok ([devB], [], [devA], []) ∧ [devA].length ≠ 2 ∧ [devB] ≠ ([] : List Client) := by
  refine ⟨by rfl, by decide, by decide⟩

/-- C2: name hydration with no stored row does not fail silently.  For a
device whose in-memory name is the sentinel and whose mac has no registry
row, `get_client_names` raises: `fetchone()` returns Python `None`, the
`[0]` subscript raises `TypeError`, and the `except sqlite3.IntegrityError`
handler does not catch it. -/
theorem c2_get_client_names_raises :
    get_client_names [] [⟨"10.0.0.5", "AA-AA-AA-AA-AA-AA", "unknown", -1⟩] =
      .error "TypeError: NoneType object is not subscriptable" := by rfl

/-- C9: a malformed anchor address (no dotted address-range prefix) makes
`ping_all` abort with an exception instead of returning a sweep result.
(In the source the branch is `sys.exit(...)`, line 88; since `sys` is never
imported the line actually raises `NameError`, so the abort is an uncaught
crash rather than the intended clean configuration-error exit.) -/
theorem c9_malformed_anchor_error :
    ping_all "localhost" 350 poAllFail =
      .error "error, IP not matching in ping_all function" := by rfl

/-- C4 counterexample: anchored at 192.168.1.10 with only .5 and .20
answering, the sweep probes 192.168.1.0 (the claim says candidates start at
.1) and its result list does not contain 192.168.1.5 (the claim says the
result set is {.5, .20}): four consecutive misses at .0-.3 end the sweep
before .5 is ever probed. -/
theorem c4_scenarioA_counterexample :
    ∃ r, ping_all "192.168.1.10" 600 poScenarioA = .ok r ∧
      "192.168.1.0" ∈ r.probed ∧ "192.168.1.5" ∉ r.ip_list := by
  refine ⟨⟨[], 4, ["192.168.1.0", "192.168.1.1", "192.168.1.2", "192.168.1.3"]⟩, by rfl, by decide, by decide⟩

/-- C4 (amended): anchored at 192.168.1.10 the candidate addresses are
192.168.1.0 through 192.168.1.254 with the anchor skipped, subject to the
four-consecutive-miss early exit; when only .5 and .20 answer and every
other probe fails, the sweep probes exactly .0, .1, .2, .3 and returns the
empty result list. -/
theorem c4_scenarioA_amended :
    ping_all "192.168.1.10" 600 poScenarioA =
      .ok ⟨[], 4, ["192.168.1.0", "192.168.1.1", "192.168.1.2", "192.168.1.3"]⟩ := by rfl

/-- C3 counterexample: a probe output containing the phrase "100% loss"
(the real Windows packet-loss summary) matches none of the code phrases —
the code third phrase is the literal `"100%% lost"` — so the address is
classified reachable and appended to the result list, where the claim says
such output is classified unreachable. -/
theorem c3_loss_output_counterexample :
    containsStr "100% loss" (poLoss "10.0.0.0") = true ∧
      ping_failed (poLoss "10.0.0.0") = false ∧
      ∃ r, ping_all "10.0.0.2" 350 poLoss = .ok r ∧ "10.0.0.0" ∈ r.ip_list := by
  refine ⟨by decide, by decide,
    ⟨["10.0.0.0"], 5, ["10.0.0.0", "10.0.0.1", "10.0.0.3", "10.0.0.4", "10.0.0.5"]⟩, by rfl, by decide⟩

/-- C8 counterexample: on an interface-configuration response from which
neither address can be parsed, `fetch_user_id` does not fail: it returns a
result whose ip and mac fields are both Python `None`. -/
theorem c8_returns_counterexample :
    fetch_user_id ["Windows IP Configuration"] = ⟨"Your Device", none, none⟩ := by rfl

/-! ### Helper lemmas -/

theorem find?_append_of_some {α : Type} {p : α → Bool} {l1 : List α} {a : α}
    (l2 : List α) (h : l1.find? p = some a) : (l1 ++ l2).find? p = some a := by
  induction l1 with
  | nil => simp [List.find?] at h
  | cons x t ih =>
    rw [List.cons_append]
    rw [List.find?_cons] at h ⊢
    cases hp : p x with
    | true => simpa [hp] using h
    | false =>
      rw [hp] at h
      simpa [hp] using ih h

theorem find?_append_of_none {α : Type} {p : α → Bool} {l1 : List α}
    (l2 : List α) (h : l1.find? p = none) : (l1 ++ l2).find? p = l2.find? p := by
  induction l1 with
  | nil => simp
  | cons x t ih =>
    rw [List.find?_cons] at h
    cases hp : p x with
    | true => rw [hp] at h; exact absurd h (by simp)
    | false =>
      rw [hp] at h
      rw [List.cons_append, List.find?_cons, hp]
      exact ih h

theorem concat_inj_pair {α : Type} {l1 l2 : List α} {a b : α}
    (h : l1 ++ [a] = l2 ++ [b]) : l1 = l2 ∧ a = b := by
  have h2 := List.append_inj' h rfl
  exact ⟨h2.1, by simpa using h2.2⟩

/-- Lemma: `getMacsScan` only ever writes the mac field, and only while the mac is
still the sentinel. -/
theorem getMacsScan_frame (arp_output : List String) (c : Client) :
    (getMacsScan arp_output c).ip = c.ip ∧
      (getMacsScan arp_output c).name = c.name ∧
      (getMacsScan arp_output c).id = c.id ∧
      (c.mac ≠ "unknown" → getMacsScan arp_output c = c) := by
  induction arp_output with
  | nil => exact ⟨rfl, rfl, rfl, fun _ => rfl⟩
  | cons line rest ih =>
    rw [getMacsScan]
    by_cases hc : (containsStr c.ip line && c.mac == "unknown") = true
    · rw [if_pos hc]
      have hmac : c.mac = "unknown" := by
        have := (Bool.and_eq_true _ _).mp hc
        exact eq_of_beq this.2
      cases hm : regexSearch matchMacAt line.data with
      | some m => exact ⟨rfl, rfl, rfl, fun hne => absurd hmac hne⟩
      | none => exact ⟨ih.1, ih.2.1, ih.2.2.1, ih.2.2.2⟩
    · rw [if_neg hc]
      exact ⟨ih.1, ih.2.1, ih.2.2.1, ih.2.2.2⟩

/-- C10: `get_macs` returns the constant `True`, and its in-place effect
touches only the mac field, and only for clients whose mac is still the
sentinel "unknown"; a client with a resolved hardware address comes out
entirely unchanged. -/
theorem c10_get_macs_frame (arp_output : List String) (client_list : List Client)
    (i : Nat) (c : Client) (h : client_list[i]? = some c) :
    (get_macs arp_output client_list).2 = true ∧
      ∃ c2, (get_macs arp_output client_list).1[i]? = some c2 ∧
        c2.ip = c.ip ∧ c2.name = c.name ∧ c2.id = c.id ∧
        (c.mac ≠ "unknown" → c2 = c) := by
  refine ⟨rfl, getMacsScan arp_output c, ?_, (getMacsScan_frame arp_output c).1,
    (getMacsScan_frame arp_output c).2.1, (getMacsScan_frame arp_output c).2.2.1,
    (getMacsScan_frame arp_output c).2.2.2⟩
  rw [get_macs, List.getElem?_map, h, Option.map_some']

/-- Witness for C10 at a concrete arp snapshot and client list. -/
theorem c10_get_macs_frame_witness :
    (get_macs ["  10.0.0.5  1a-2b-3c-4d-5e-6f  dynamic"] [devA]).2 = true ∧
      ∃ c2, (get_macs ["  10.0.0.5  1a-2b-3c-4d-5e-6f  dynamic"] [devA]).1[0]? = some c2 ∧
        c2.ip = devA.ip ∧ c2.name = devA.name ∧ c2.id = devA.id ∧
        (devA.mac ≠ "unknown" → c2 = devA) :=
  c10_get_macs_frame ["  10.0.0.5  1a-2b-3c-4d-5e-6f  dynamic"] [devA] 0 devA (by rfl)

theorem ip_find_eq_none {lines : List String}
    (h : ∀ line ∈ lines, regexSearch matchIpAt line.data = none) :
    ip_find lines = none := by
  induction lines with
  | nil => rfl
  | cons line rest ih =>
    rw [ip_find]
    have hrest : ip_find rest = none := ih (fun l hl => h l (List.mem_cons_of_mem _ hl))
    by_cases hc : containsStr "IPv4 Address" line = true
    · rw [if_pos hc, h line (List.mem_cons_self _ _)]
      exact hrest
    · rw [if_neg hc]
      exact hrest

theorem mac_find_eq_none {lines : List String}
    (h : ∀ line ∈ lines, regexSearch matchMacAt line.data = none) :
    mac_find lines = none := by
  induction lines with
  | nil => rfl
  | cons line rest ih =>
    rw [mac_find]
    have hrest : mac_find rest = none := ih (fun l hl => h l (List.mem_cons_of_mem _ hl))
    by_cases hc : containsStr "Physical Address" line = true
    · rw [if_pos hc, h line (List.mem_cons_self _ _)]
      exact hrest
    · rw [if_neg hc]
      exact hrest

/-- C8 (amended): on an interface-configuration response none of whose
lines yields a network-address or hardware-address token, `fetch_user_id`
does not fail with any error: it returns the result
`{name: "Your Device", ip: None, mac: None}`. -/
theorem c8_unparsable_returns_none (lines : List String)
    (hip : ∀ line ∈ lines, regexSearch matchIpAt line.data = none)
    (hmac : ∀ line ∈ lines, regexSearch matchMacAt line.data = none) :
    fetch_user_id lines = ⟨"Your Device", none, none⟩ := by
  rw [fetch_user_id, ip_find_eq_none hip, mac_find_eq_none hmac]

/-- Witness for C8 on a concrete two-line response with no address tokens. -/
theorem c8_unparsable_returns_none_witness :
    fetch_user_id ["Windows IP Configuration", "   Host Name : box"] =
      ⟨"Your Device", none, none⟩ :=
  c8_unparsable_returns_none ["Windows IP Configuration", "   Host Name : box"]
    (by decide) (by decide)

/-- C6: registration by hardware address is an idempotent upsert.  On a
registry with at most one row for the device mac (the UNIQUE(mac)
constraint), running `add_clients_to_db` a second time changes nothing (so
in particular the surrogate id is unchanged between the calls), after the
first run exactly one row carries the mac, and a row already present
before the first run survives it verbatim (its stored name untouched). -/
theorem c6_register_idempotent (db : List DBRow) (c : Client)
    (h : (db.filter (fun r => r.mac == c.mac)).length ≤ 1) :
    add_clients_to_db (add_clients_to_db db [c]) [c] = add_clients_to_db db [c] ∧
      ((add_clients_to_db db [c]).filter (fun r => r.mac == c.mac)).length = 1 ∧
      ∀ r ∈ db, r.mac = c.mac → r ∈ add_clients_to_db db [c] := by
  cases hf : findRow db c.mac with
  | some r =>
    have e1 : add_clients_to_db db [c] = db := by
      simp only [add_clients_to_db, hf]
    have hf2 : db.find? (fun r2 => r2.mac == c.mac) = some r := hf
    have hrmem : r ∈ db := List.mem_of_find?_eq_some hf2
    have hrp := List.find?_some hf2
    refine ⟨by rw [e1, e1], ?_, by rw [e1]; exact fun r2 h2 _ => h2⟩
    rw [e1]
    have hge : 1 ≤ (db.filter (fun r2 => r2.mac == c.mac)).length :=
      List.length_pos_of_mem (List.mem_filter.mpr ⟨hrmem, hrp⟩)
    omega
  | none =>
    have e1 : add_clients_to_db db [c] = db ++ [⟨c.name, c.mac, nextId db⟩] := by
      simp only [add_clients_to_db, hf]
    have hf2 : db.find? (fun r2 => r2.mac == c.mac) = none := hf
    have hfind2 : findRow (db ++ [⟨c.name, c.mac, nextId db⟩]) c.mac =
        some ⟨c.name, c.mac, nextId db⟩ := by
      rw [findRow, find?_append_of_none _ hf2]
      simp [List.find?_cons]
    have e2 : add_clients_to_db (db ++ [⟨c.name, c.mac, nextId db⟩]) [c] =
        db ++ [⟨c.name, c.mac, nextId db⟩] := by
      simp only [add_clients_to_db, hfind2]
    have hfnil : db.filter (fun r2 => r2.mac == c.mac) = [] := by
      rw [List.filter_eq_nil_iff]
      intro a ha
      exact List.find?_eq_none.mp hf2 a ha
    refine ⟨by rw [e1, e2], ?_, fun r2 h2 _ => by rw [e1]; exact List.mem_append_left _ h2⟩
    rw [e1, List.filter_append, hfnil]
    simp

/-- Witness for C6: an empty registry and a fresh device. -/
theorem c6_register_idempotent_witness :
    add_clients_to_db (add_clients_to_db [] [⟨"10.0.0.5", "AA", "unknown", -1⟩]) [⟨"10.0.0.5", "AA", "unknown", -1⟩] =
        add_clients_to_db [] [⟨"10.0.0.5", "AA", "unknown", -1⟩] ∧
      ((add_clients_to_db [] [⟨"10.0.0.5", "AA", "unknown", -1⟩]).filter (fun r => r.mac == "AA")).length = 1 ∧
      ∀ r ∈ ([] : List DBRow), r.mac = "AA" → r ∈ add_clients_to_db [] [⟨"10.0.0.5", "AA", "unknown", -1⟩] :=
  c6_register_idempotent [] ⟨"10.0.0.5", "AA", "unknown", -1⟩ (by decide)

/-- The sweep result list is exactly the probed addresses whose output
matched no failure phrase, in probe order. -/
theorem pingLoop_filter (x ip_pre : String) (po : String → String) :
    ∀ rem i ipList unused count probed,
      ipList = probed.filter (fun ip => !ping_failed (po ip)) →
      (pingLoop x ip_pre po rem i ipList unused count probed).ip_list =
        (pingLoop x ip_pre po rem i ipList unused count probed).probed.filter
          (fun ip => !ping_failed (po ip)) := by
  intro rem
  induction rem with
  | zero => intro i ipList unused count probed h; exact h
  | succ rem ih =>
    intro i ipList unused count probed h
    simp only [pingLoop]
    by_cases hx : x = ip_pre ++ toString i
    · rw [if_pos hx]
      exact ih (i + 1) ipList unused count probed h
    · rw [if_neg hx]
      by_cases hp : ping_failed (po (ip_pre ++ toString i)) = true
      · rw [if_pos hp]
        have hstep : ipList =
            (probed ++ [ip_pre ++ toString i]).filter (fun ip => !ping_failed (po ip)) := by
          rw [List.filter_append, h]
          simp [hp]
        by_cases hu : unused + 1 > 3
        · rw [if_pos hu]
          exact hstep
        · rw [if_neg hu]
          exact ih (i + 1) ipList (unused + 1) (count + 1) (probed ++ [ip_pre ++ toString i]) hstep
      · rw [if_neg hp]
        have hstep : ipList ++ [ip_pre ++ toString i] =
            (probed ++ [ip_pre ++ toString i]).filter (fun ip => !ping_failed (po ip)) := by
          rw [List.filter_append, h]
          simp [hp]
        exact ih (i + 1) (ipList ++ [ip_pre ++ toString i]) 0 (count + 1)
          (probed ++ [ip_pre ++ toString i]) hstep

/-- C3 (amended): a probe output is classified as a miss exactly when it
contains one of the literal phrases "unreachable", "timed out" or
"100%% lost" (the code third phrase carries a doubled percent sign and
the word "lost", not the claimed "100% loss"), and in any sweep the result
list is exactly the probed addresses whose output contained none of these
phrases, in probe order. -/
theorem c3_sweep_classification (x : String) (t : Nat) (po : String → String)
    (r : SweepResult) (h : ping_all x t po = .ok r) :
    (∀ out, ping_failed out =
      (containsStr "unreachable" out || containsStr "timed out" out || containsStr "100%% lost" out)) ∧
      r.ip_list = r.probed.filter (fun ip => !ping_failed (po ip)) := by
  constructor
  · intro out
    simp [ping_failed, not_found_messages, Bool.or_assoc]
  · revert h
    rw [ping_all]
    cases hs : regexSearch matchIpRangeAt x.data with
    | none => intro h; exact absurd h (by simp)
    | some pre =>
      intro h
      have hr : pingLoop x (String.mk pre) po 255 0 [] 0 0 [] = r := by
        injection h
      rw [← hr]
      exact pingLoop_filter x (String.mk pre) po 255 0 [] 0 0 [] rfl

/-- Witness for C3 on a concrete sweep where every probe times out. -/
theorem c3_sweep_classification_witness :
    (∀ out, ping_failed out =
      (containsStr "unreachable" out || containsStr "timed out" out || containsStr "100%% lost" out)) ∧
      ([] : List String) =
        (["9.8.7.0", "9.8.7.1", "9.8.7.2", "9.8.7.3"].filter
          (fun ip => !ping_failed (poAllFail ip))) :=
  c3_sweep_classification "9.8.7.6" 350 poAllFail
    ⟨[], 4, ["9.8.7.0", "9.8.7.1", "9.8.7.2", "9.8.7.3"]⟩ (by rfl)

/-- Invariant proof for the early-exit property: provided every all-miss
suffix of the trace so far is no longer than the consecutive-miss counter
(which is at most 3), and no four consecutive misses occur anywhere in the
trace so far, any four consecutive misses in the final trace are its last
four probes. -/
theorem pingLoop_early_exit (x ip_pre : String) (po : String → String) :
    ∀ rem i ipList unused count probed,
      unused ≤ 3 →
      (∀ p w, probed = p ++ w → (∀ ip ∈ w, ping_failed (po ip) = true) → w.length ≤ unused) →
      (∀ p w q, probed = p ++ w ++ q → w.length = 4 →
        (∀ ip ∈ w, ping_failed (po ip) = true) → False) →
      ∀ p w q, (pingLoop x ip_pre po rem i ipList unused count probed).probed = p ++ w ++ q →
        w.length = 4 → (∀ ip ∈ w, ping_failed (po ip) = true) → q = [] := by
  intro rem
  induction rem with
  | zero =>
    intro i ipList unused count probed _ _ hquad p w q hd hw hf
    exact absurd (hquad p w q hd hw hf) (fun h => h)
  | succ rem ih =>
    intro i ipList unused count probed hu3 htrail hquad
    simp only [pingLoop]
    by_cases hx : x = ip_pre ++ toString i
    · rw [if_pos hx]
      exact ih (i + 1) ipList unused count probed hu3 htrail hquad
    · rw [if_neg hx]
      by_cases hp : ping_failed (po (ip_pre ++ toString i)) = true
      · rw [if_pos hp]
        by_cases hu : unused + 1 > 3
        · rw [if_pos hu]
          intro p w q hd hw hf
          rcases List.eq_nil_or_concat q with hqnil | ⟨qt, a, hqc⟩
          · exact hqnil
          · rw [List.concat_eq_append] at hqc
            subst hqc
            rw [← List.append_assoc] at hd
            obtain ⟨hd1, _⟩ := concat_inj_pair hd
            exact absurd (hquad p w qt hd1 hw hf) (fun h => h)
        · rw [if_neg hu]
          have htrail2 : ∀ p w, probed ++ [ip_pre ++ toString i] = p ++ w →
              (∀ ip ∈ w, ping_failed (po ip) = true) → w.length ≤ unused + 1 := by
            intro p w hd hf
            rcases List.eq_nil_or_concat w with hwnil | ⟨wt, a, hwc⟩
            · subst hwnil; simp
            · rw [List.concat_eq_append] at hwc
              subst hwc
              rw [← List.append_assoc] at hd
              obtain ⟨hd1, _⟩ := concat_inj_pair hd.symm
              have hwt : wt.length ≤ unused :=
                htrail p wt hd1.symm (fun ip hip => hf ip (List.mem_append_left _ hip))
              simp only [List.length_append, List.length_singleton]
              omega
          have hquad2 : ∀ p w q, probed ++ [ip_pre ++ toString i] = p ++ w ++ q →
              w.length = 4 → (∀ ip ∈ w, ping_failed (po ip) = true) → False := by
            intro p w q hd hw hf
            rcases List.eq_nil_or_concat q with hqnil | ⟨qt, a, hqc⟩
            · subst hqnil
              rw [List.append_nil] at hd
              have := htrail2 p w hd hf
              omega
            · rw [List.concat_eq_append] at hqc
              subst hqc
              rw [← List.append_assoc] at hd
              obtain ⟨hd1, _⟩ := concat_inj_pair hd.symm
              exact hquad p w qt hd1.symm hw hf
          exact ih (i + 1) ipList (unused + 1) (count + 1) (probed ++ [ip_pre ++ toString i])
            (by omega) htrail2 hquad2
      · rw [if_neg hp]
        have htrail2 : ∀ p w, probed ++ [ip_pre ++ toString i] = p ++ w →
            (∀ ip ∈ w, ping_failed (po ip) = true) → w.length ≤ 0 := by
          intro p w hd hf
          rcases List.eq_nil_or_concat w with hwnil | ⟨wt, a, hwc⟩
          · subst hwnil; simp
          · rw [List.concat_eq_append] at hwc
            subst hwc
            rw [← List.append_assoc] at hd
            obtain ⟨_, ha⟩ := concat_inj_pair hd.symm
            have : ping_failed (po a) = true :=
              hf a (List.mem_append_right _ (List.mem_singleton_self a))
            rw [← ha] at hp
            exact absurd this hp
        have hquad2 : ∀ p w q, probed ++ [ip_pre ++ toString i] = p ++ w ++ q →
            w.length = 4 → (∀ ip ∈ w, ping_failed (po ip) = true) → False := by
          intro p w q hd hw hf
          rcases List.eq_nil_or_concat q with hqnil | ⟨qt, a, hqc⟩
          · subst hqnil
            rw [List.append_nil] at hd
            have := htrail2 p w hd hf
            omega
          · rw [List.concat_eq_append] at hqc
            subst hqc
            rw [← List.append_assoc] at hd
            obtain ⟨hd1, _⟩ := concat_inj_pair hd.symm
            exact hquad p w qt hd1.symm hw hf
        exact ih (i + 1) (ipList ++ [ip_pre ++ toString i]) 0 (count + 1)
          (probed ++ [ip_pre ++ toString i]) (by omega) htrail2 hquad2

/-- C5: once four consecutive probes have failed, no further address is
probed in the same sweep: any four consecutive failing probes in a sweep
probe trace are its final four entries. -/
theorem c5_early_exit (x : String) (t : Nat) (po : String → String) (r : SweepResult)
    (h : ping_all x t po = .ok r) (p w q : List String)
    (hd : r.probed = p ++ w ++ q) (hw : w.length = 4)
    (hf : ∀ ip ∈ w, ping_failed (po ip) = true) : q = [] := by
  revert h
  rw [ping_all]
  cases hs : regexSearch matchIpRangeAt x.data with
  | none => intro h; exact absurd h (by simp)
  | some pre =>
    intro h
    have hr : pingLoop x (String.mk pre) po 255 0 [] 0 0 [] = r := by injection h
    refine pingLoop_early_exit x (String.mk pre) po 255 0 [] 0 0 [] (by omega) ?_ ?_ p w q
      (by rw [hr]; exact hd) hw hf
    · intro p2 w2 hd2 _
      have : w2 = [] := (List.append_eq_nil.mp hd2.symm).2
      subst this
      simp
    · intro p2 w2 q2 hd2 hw2 _
      have : w2 ++ q2 = [] := (List.append_eq_nil.mp (by rw [List.append_assoc] at hd2; exact hd2.symm)).2
      have : w2 = [] := (List.append_eq_nil.mp this).1
      subst this
      simp at hw2

/-- Witness for C5: a concrete sweep whose four probes all fail; the trace
decomposes with the four misses as its suffix and nothing after them. -/
theorem c5_early_exit_witness : ([] : List String) = [] :=
  c5_early_exit "1.2.3.4" 350 poAllFail
    ⟨[], 4, ["1.2.3.0", "1.2.3.1", "1.2.3.2", "1.2.3.3"]⟩ (by rfl)
    [] ["1.2.3.0", "1.2.3.1", "1.2.3.2", "1.2.3.3"] [] (by rfl) (by rfl) (by decide)

/-! ### Lemmas about registration and hydration, leading to C7 -/

theorem add_clients_to_db_append (cl : List Client) :
    ∀ db : List DBRow, ∃ ext, add_clients_to_db db cl = db ++ ext := by
  induction cl with
  | nil => intro db; exact ⟨[], (List.append_nil db).symm⟩
  | cons c rest ih =>
    intro db
    cases hf : findRow db c.mac with
    | some r =>
      obtain ⟨ext, he⟩ := ih db
      exact ⟨ext, by simp only [add_clients_to_db, hf]; exact he⟩
    | none =>
      obtain ⟨ext, he⟩ := ih (db ++ [⟨c.name, c.mac, nextId db⟩])
      refine ⟨[⟨c.name, c.mac, nextId db⟩] ++ ext, ?_⟩
      simp only [add_clients_to_db, hf]
      rw [he, List.append_assoc]

theorem findRow_add_of_some {db : List DBRow} {m : String} {row : DBRow}
    (cl : List Client) (h : findRow db m = some row) :
    findRow (add_clients_to_db db cl) m = some row := by
  obtain ⟨ext, he⟩ := add_clients_to_db_append cl db
  rw [he, findRow]
  exact find?_append_of_some ext h

theorem findRow_add_covers (cl : List Client) :
    ∀ db : List DBRow, ∀ c ∈ cl, (findRow (add_clients_to_db db cl) c.mac).isSome := by
  induction cl with
  | nil => intro db c hc; cases hc
  | cons c0 rest ih =>
    intro db c hc
    cases hf : findRow db c0.mac with
    | some r =>
      rw [show add_clients_to_db db (c0 :: rest) = add_clients_to_db db rest by
        simp only [add_clients_to_db, hf]]
      rcases List.mem_cons.mp hc with hc0 | hcr
      · subst hc0
        rw [findRow_add_of_some rest hf]
        rfl
      · exact ih db c hcr
    | none =>
      have hf2 : db.find? (fun r2 => r2.mac == c0.mac) = none := hf
      have hfound : findRow (db ++ [⟨c0.name, c0.mac, nextId db⟩]) c0.mac =
          some ⟨c0.name, c0.mac, nextId db⟩ := by
        rw [findRow, find?_append_of_none _ hf2]
        simp [List.find?_cons]
      rw [show add_clients_to_db db (c0 :: rest) =
          add_clients_to_db (db ++ [⟨c0.name, c0.mac, nextId db⟩]) rest by
        simp only [add_clients_to_db, hf]]
      rcases List.mem_cons.mp hc with hc0 | hcr
      · subst hc0
        rw [findRow_add_of_some rest hfound]
        rfl
      · exact ih (db ++ [⟨c0.name, c0.mac, nextId db⟩]) c hcr

theorem mapE_ok_of_forall {α β : Type} (f : α → Except String β) (g : α → β) :
    ∀ l : List α, (∀ a ∈ l, f a = .ok (g a)) → mapE f l = .ok (l.map g) := by
  intro l
  induction l with
  | nil => intro _; rfl
  | cons a t ih =>
    intro h
    rw [mapE, h a (List.mem_cons_self _ _), ih (fun b hb => h b (List.mem_cons_of_mem _ hb))]
    rfl

/-- The success-path effect of one step of the first `get_client_names`
loop: hydrate a sentinel name from the stored row. -/
def hydrateNamePure (db : List DBRow) (c : Client) : Client :=
  if c.name == "unknown" then
    match findRow db c.mac with
    | some r => c.withName r.name
    | none => c
  else c

/-- The success-path effect of one step of the second `get_client_names`
loop: hydrate a placeholder id from the stored row. -/
def hydrateIdPure (db : List DBRow) (c : Client) : Client :=
  if c.id == -1 then
    match findRow db c.mac with
    | some r => c.withId r.id
    | none => c
  else c

theorem hydrateNameStep_ok {db : List DBRow} {c : Client}
    (h : (findRow db c.mac).isSome) :
    hydrateNameStep db c = .ok (hydrateNamePure db c) := by
  rw [hydrateNameStep, hydrateNamePure]
  by_cases hn : (c.name == "unknown") = true
  · rw [if_pos hn, if_pos hn]
    cases hf : findRow db c.mac with
    | some r => rfl
    | none => rw [hf] at h; cases h
  · rw [if_neg hn, if_neg hn]

theorem hydrateIdStep_ok {db : List DBRow} {c : Client}
    (h : (findRow db c.mac).isSome) :
    hydrateIdStep db c = .ok (hydrateIdPure db c) := by
  rw [hydrateIdStep, hydrateIdPure]
  by_cases hn : (c.id == -1) = true
  · rw [if_pos hn, if_pos hn]
    cases hf : findRow db c.mac with
    | some r => rfl
    | none => rw [hf] at h; cases h
  · rw [if_neg hn, if_neg hn]

theorem hydrateNamePure_mac (db : List DBRow) (c : Client) :
    (hydrateNamePure db c).mac = c.mac := by
  rw [hydrateNamePure]
  by_cases hn : (c.name == "unknown") = true
  · rw [if_pos hn]
    cases findRow db c.mac <;> rfl
  · rw [if_neg hn]

theorem hydrateIdPure_mac (db : List DBRow) (c : Client) :
    (hydrateIdPure db c).mac = c.mac := by
  rw [hydrateIdPure]
  by_cases hn : (c.id == -1) = true
  · rw [if_pos hn]
    cases findRow db c.mac <;> rfl
  · rw [if_neg hn]

theorem hydrateIdPure_name (db : List DBRow) (c : Client) :
    (hydrateIdPure db c).name = c.name := by
  rw [hydrateIdPure]
  by_cases hn : (c.id == -1) = true
  · rw [if_pos hn]
    cases findRow db c.mac <;> rfl
  · rw [if_neg hn]

/-- After hydration against a registry whose row for the client mac
carries a non-sentinel name, the client name is not the sentinel. -/
theorem hydrateNamePure_name_ne {db : List DBRow} {c : Client} {row : DBRow}
    (hrow : findRow db c.mac = some row) (hname : row.name ≠ "unknown") :
    (hydrateNamePure db c).name ≠ "unknown" := by
  rw [hydrateNamePure]
  by_cases hn : (c.name == "unknown") = true
  · rw [if_pos hn, hrow]
    exact hname
  · rw [if_neg hn]
    intro he
    exact hn (by rw [he]; rfl)

theorem get_client_names_ok {db : List DBRow} {cl : List Client}
    (h : ∀ c ∈ cl, (findRow db c.mac).isSome) :
    get_client_names db cl =
      .ok (cl.map (fun c => hydrateIdPure db (hydrateNamePure db c))) := by
  rw [get_client_names]
  rw [mapE_ok_of_forall (hydrateNameStep db) (hydrateNamePure db) cl
    (fun c hc => hydrateNameStep_ok (h c hc))]
  show mapE (hydrateIdStep db) (cl.map (hydrateNamePure db)) = _
  have h2 : ∀ c2 ∈ cl.map (hydrateNamePure db), (findRow db c2.mac).isSome := by
    intro c2 hc2
    obtain ⟨c, hc, rfl⟩ := List.mem_map.mp hc2
    rw [hydrateNamePure_mac]
    exact h c hc
  rw [mapE_ok_of_forall (hydrateIdStep db) (hydrateIdPure db) _
    (fun c2 hc2 => hydrateIdStep_ok (h2 c2 hc2))]
  rw [List.map_map]
  rfl

/-- Every mac the vendor loop calls the api for belongs to a client whose
name was still the sentinel when the loop reached it. -/
theorem vendorLoop_calls (api : String → Option String) (cl : List Client) :
    ∀ db : List DBRow, ∀ s ∈ (vendorLoop api db cl).2.2,
      ∃ c ∈ cl, c.mac = s ∧ c.name = "unknown" := by
  induction cl with
  | nil => intro db s hs; cases hs
  | cons c rest ih =>
    intro db s hs
    rw [vendorLoop] at hs
    by_cases hn : (c.name == "unknown") = true
    · rw [if_pos hn] at hs
      rcases List.mem_cons.mp hs with hs0 | hsr
      · exact ⟨c, List.mem_cons_self _ _, hs0.symm, eq_of_beq hn⟩
      · obtain ⟨c2, hc2, hm, hnm⟩ := ih _ s hsr
        exact ⟨c2, List.mem_cons_of_mem _ hc2, hm, hnm⟩
    · rw [if_neg hn] at hs
      obtain ⟨c2, hc2, hm, hnm⟩ := ih db s hs
      exact ⟨c2, List.mem_cons_of_mem _ hc2, hm, hnm⟩

/-- The vendor loop transforms the client at each position independently of
the threaded registry state. -/
theorem vendorLoop_getElem (api : String → Option String) (cl : List Client) :
    ∀ db : List DBRow, ∀ (i : Nat) (c : Client), cl[i]? = some c →
      (vendorLoop api db cl).1[i]? =
        some (if c.name == "unknown" then get_mac_manufacturer_api api c else c) := by
  induction cl with
  | nil => intro db i c hc; simp at hc
  | cons c0 rest ih =>
    intro db i c hc
    rw [vendorLoop]
    by_cases hn : (c0.name == "unknown") = true
    · rw [if_pos hn]
      cases i with
      | zero =>
        rw [List.getElem?_cons_zero] at hc
        injection hc with hc
        subst hc
        rw [List.getElem?_cons_zero, if_pos hn]
      | succ j =>
        rw [List.getElem?_cons_succ] at hc
        rw [List.getElem?_cons_succ]
        exact ih _ j c hc
    · rw [if_neg hn]
      cases i with
      | zero =>
        rw [List.getElem?_cons_zero] at hc
        injection hc with hc
        subst hc
        rw [List.getElem?_cons_zero, if_neg hn]
      | succ j =>
        rw [List.getElem?_cons_succ] at hc
        rw [List.getElem?_cons_succ]
        exact ih db j c hc

/-- C7: once a non-sentinel name is stored in the registry for a hardware
address, an enrichment pass over a device with that hardware address and a
still-sentinel in-memory name never invokes the vendor lookup for that
address: hydration installs the stored name before the vendor loop runs,
and the device comes out carrying the stored name. -/
theorem c7_name_precedence (arp_output : List String) (api : String → Option String)
    (db : List DBRow) (clients : List Client) (m : String) (row : DBRow)
    (i : Nat) (c : Client)
    (hm : m ≠ "unknown")
    (hrow : findRow db m = some row) (hname : row.name ≠ "unknown")
    (hi : clients[i]? = some c) (hcm : c.mac = m) (hcn : c.name = "unknown") :
    ∃ out, get_connections_info arp_output api db clients = .ok out ∧
      m ∉ out.2.2 ∧
      ∃ c2, out.1[i]? = some c2 ∧ c2.name = row.name ∧ c2.mac = m := by
  have hmap : (get_macs arp_output clients).1 = clients.map (getMacsScan arp_output) := rfl
  set cl1 := clients.map (getMacsScan arp_output) with hcl1
  set db1 := add_clients_to_db db cl1 with hdb1
  have hrow1 : findRow db1 m = some row := findRow_add_of_some cl1 hrow
  have hcov : ∀ c1 ∈ cl1, (findRow db1 c1.mac).isSome :=
    fun c1 hc1 => findRow_add_covers cl1 db c1 hc1
  have hgcn := get_client_names_ok hcov
  set g : Client → Client := fun c2 => hydrateIdPure db1 (hydrateNamePure db1 c2) with hg
  set cl2 := cl1.map g with hcl2
  have hout : get_connections_info arp_output api db clients = .ok (vendorLoop api db1 cl2) := by
    rw [get_connections_info, hmap, ← hdb1, hgcn]
  refine ⟨vendorLoop api db1 cl2, hout, ?_, ?_⟩
  · intro hmem
    obtain ⟨c2, hc2mem, hc2mac, hc2name⟩ := vendorLoop_calls api cl2 db1 m hmem
    obtain ⟨c1, hc1mem, hc1eq⟩ := List.mem_map.mp hc2mem
    have hc1mac : c1.mac = m := by
      rw [← hc1eq] at hc2mac
      rw [hg] at hc2mac
      simp only [hydrateIdPure_mac, hydrateNamePure_mac] at hc2mac
      exact hc2mac
    have hrowc1 : findRow db1 c1.mac = some row := by rw [hc1mac]; exact hrow1
    have : c2.name ≠ "unknown" := by
      rw [← hc1eq, hg]
      simp only [hydrateIdPure_name]
      exact hydrateNamePure_name_ne hrowc1 hname
    exact this hc2name
  · have hscan : getMacsScan arp_output c = c :=
      (getMacsScan_frame arp_output c).2.2.2 (by rw [hcm]; exact hm)
    have hi1 : cl1[i]? = some c := by
      rw [hcl1, List.getElem?_map, hi, Option.map_some', hscan]
    have hgc_name : (g c).name = row.name := by
      rw [hg]
      simp only [hydrateIdPure_name]
      rw [hydrateNamePure]
      have hn : (c.name == "unknown") = true := by rw [hcn]; rfl
      rw [if_pos hn, hcm, hrow1]
      rfl
    have hgc_mac : (g c).mac = m := by
      rw [hg]
      simp only [hydrateIdPure_mac, hydrateNamePure_mac]
      exact hcm
    have hi2 : cl2[i]? = some (g c) := by
      rw [hcl2, List.getElem?_map, hi1, Option.map_some']
    have hgn : ((g c).name == "unknown") = false := by
      rw [hgc_name]
      cases hb : (row.name == "unknown") with
      | false => rfl
      | true => exact absurd (eq_of_beq hb) hname
    have := vendorLoop_getElem api cl2 db1 i (g c) hi2
    rw [hgn] at this
    rw [if_neg (by simp)] at this
    exact ⟨g c, this, hgc_name, hgc_mac⟩

/-- Witness for C7: the registry stores the user name "Kitchen TV" for the
device mac; enrichment makes no vendor call for it and installs the
stored name. -/
theorem c7_name_precedence_witness :
    ∃ out, get_connections_info [] (fun _ => some "ACME")
        [⟨"Kitchen TV", "AA-BB-CC-DD-EE-FF", 1⟩]
        [⟨"10.0.0.5", "AA-BB-CC-DD-EE-FF", "unknown", -1⟩] = .ok out ∧
      "AA-BB-CC-DD-EE-FF" ∉ out.2.2 ∧
      ∃ c2, out.1[0]? = some c2 ∧ c2.name = "Kitchen TV" ∧ c2.mac = "AA-BB-CC-DD-EE-FF" :=
  c7_name_precedence [] (fun _ => some "ACME") [⟨"Kitchen TV", "AA-BB-CC-DD-EE-FF", 1⟩]
    [⟨"10.0.0.5", "AA-BB-CC-DD-EE-FF", "unknown", -1⟩] "AA-BB-CC-DD-EE-FF"
    ⟨"Kitchen TV", "AA-BB-CC-DD-EE-FF", 1⟩ 0 ⟨"10.0.0.5", "AA-BB-CC-DD-EE-FF", "unknown", -1⟩
    (by decide) (by rfl) (by decide) (by rfl) rfl rfl

end LanMonitor
